/-
Shallow embedding of the buffer registry core of the async-sys kernel module
(src/module-src/buffer.c), together with proofs about its operations.

Modelling conventions:
* `pid_t` is modelled by `Int` (only compared, never computed with);
  `buffer_id_t` is an `unsigned long`, modelled by `Nat` with arithmetic
  taken modulo `2 ^ 64` where the source increments it.
* Memory regions are modelled by their sizes; pointers by values.
* Lock acquisitions/releases, the id-counter increment, `kmalloc`/`kfree`
  and the `mpr_err` log call are recorded as an event trace (`Ev`), so that
  lock-ordering and lock-balance properties become statements about traces.
* Paths on which the C code dereferences a null `file->private_data`
  (undefined behaviour) are modelled by returning `none`.
-/
import Mathlib

namespace AsSysBuffer

/-- Composite key of the global registry: `struct map_key` with fields
`pid` (owner process id, `pid_t`) and `buffer_uid` (`buffer_id_t`),
as used by `map_key_cmp` in buffer.c. -/
structure map_key where
  pid : Int
  buffer_uid : Nat
deriving DecidableEq

/-- `map_key_cmp` from buffer.c lines 65-80: primary comparison on `pid`,
secondary on `buffer_uid`; returns -1 / 1 / 0. -/
def map_key_cmp (l_key r_key : map_key) : Int :=
  if l_key.pid < r_key.pid then -1
  else if l_key.pid > r_key.pid then 1
  else if l_key.buffer_uid < r_key.buffer_uid then -1
  else if l_key.buffer_uid > r_key.buffer_uid then 1
  else 0

/-- `struct buffer_slab`: the kernel-owned and user-shareable regions are
modelled by their allocation sizes (the pointers themselves carry no further
observable content in the model); its `rwlock` shows up in event traces. -/
structure buffer_slab where
  userSize : Nat
  kernelSize : Nat
deriving DecidableEq

/-- `struct map_entry`: key plus owned buffer slab (the `rb_node` linkage is
represented by the node position in the `Rbtree` below). -/
structure map_entry where
  key : map_key
  buffer : buffer_slab
deriving DecidableEq

/-- The registry's search tree (`struct rb_root` plus linked `rb_node`s).
Red-black colouring is kept by the kernel library and only affects balance,
never the key-to-entry mapping, so nodes are modelled uncoloured. -/
inductive Rbtree where
  | nil : Rbtree
  | node (left : Rbtree) (entry : map_entry) (right : Rbtree) : Rbtree
deriving DecidableEq

/-- Structural membership of an entry in a tree. -/
def MemT (e : map_entry) : Rbtree → Prop
  | .nil => False
  | .node l e0 r => MemT e l ∨ e = e0 ∨ MemT e r

/-- `map_search` from buffer.c lines 85-102: descend left on negative
comparison, right on positive, return the entry on equality. -/
def map_search : Rbtree → map_key → Option map_entry
  | .nil, _ => none
  | .node l e0 r, key =>
    if map_key_cmp key e0.key < 0 then map_search l key
    else if map_key_cmp key e0.key > 0 then map_search r key
    else some e0

/-- `map_insert` from buffer.c lines 119-143: descend to the insertion
point; an equal key aborts the insertion (the C code returns `false`);
`rb_insert_color` rebalances without changing contents and is omitted. -/
def map_insert : Rbtree → map_entry → Option Rbtree
  | .nil, data => some (.node .nil data .nil)
  | .node l e0 r, data =>
    if map_key_cmp data.key e0.key < 0 then
      (map_insert l data).map (fun l2 => .node l2 e0 r)
    else if map_key_cmp data.key e0.key > 0 then
      (map_insert r data).map (fun r2 => .node l e0 r2)
    else none

/-- Joins two trees all of whose keys are separated by an erased pivot key
(every key of the first argument below every key of the second). -/
def treeAppend : Rbtree → Rbtree → Rbtree
  | .nil, r => r
  | .node ll e0 lr, r => .node ll e0 (treeAppend lr r)

/-- Modelled from the spec: `rb_erase` is a kernel library routine
(linux/rbtree.h), not part of this repository; per spec section 4.1,
`erase(key)` "removes the entry". Modelled as binary-search-tree deletion by
key (rebalancing omitted, as it does not change the key-to-entry mapping). -/
def rb_erase : Rbtree → map_key → Rbtree
  | .nil, _ => .nil
  | .node l e0 r, key =>
    if map_key_cmp key e0.key < 0 then .node (rb_erase l key) e0 r
    else if map_key_cmp key e0.key > 0 then .node l e0 (rb_erase r key)
    else treeAppend l r

/-- Binary-search-tree invariant with respect to `map_key_cmp`: keys in the
left subtree compare below the root key, keys in the right subtree above. -/
inductive IsBST : Rbtree → Prop
  | nil : IsBST .nil
  | node {l r : Rbtree} {e0 : map_entry}
      (hl : ∀ e, MemT e l → map_key_cmp e.key e0.key < 0)
      (hr : ∀ e, MemT e r → map_key_cmp e.key e0.key > 0)
      (bl : IsBST l) (br : IsBST r) : IsBST (.node l e0 r)

/-- `struct file_ll_head`: the per-handle connection record. Its member
list holds one node per owned registry entry; each node is identified here
by the entry's composite key (in C the entry is recovered from the node via
`container_of`). Its spinlock shows up in event traces. -/
structure file_ll_head where
  members : List map_key
deriving DecidableEq

/-- The part of `struct file` used by buffer.c: the owner's pid (read from
`file->f_owner` under its lock) and `private_data`, which buffer.c uses to
store the connection record (`none` models a null pointer). -/
structure file where
  pid : Int
  private_data : Option file_ll_head
deriving DecidableEq

/-- The anonymous global `map_wrapper` struct from buffer.c lines 20-29:
root of the registry tree and the monotonic id counter (its rwlock shows up
in event traces). -/
structure map_wrapper_t where
  root : Rbtree
  uid_counter : Nat
deriving DecidableEq

/-- Initial value of `map_wrapper`: empty tree, counter zero. -/
def map_wrapper_init : map_wrapper_t := { root := .nil, uid_counter := 0 }

/-- Tags for the two `kmalloc` allocations performed by `alloc_buffer`:
the `kernel_data` block (map entry + list node + kernel buffer) and the
separate user buffer. -/
inductive AllocTag where
  | kernelData : AllocTag
  | userBuffer : AllocTag
deriving DecidableEq

/-- The locks touched by buffer.c. `fOwner` is `file->f_owner.lock`
(outside the spec's three tiers); `membership` is the connection record's
spinlock (tier 1); `registry` is `map_wrapper.lock` (tier 2); `slab k` is
the per-slab rwlock of the slab keyed `k` (tier 3). -/
inductive Lock where
  | fOwner : Lock
  | membership : Lock
  | registry : Lock
  | slab (key : map_key) : Lock
deriving DecidableEq

/-- Trace events: lock acquire/release (the Bool marks the write side),
the id-counter increment, successful `kmalloc` / `kfree` of a tagged
allocation, and the `mpr_err` log call. -/
inductive Ev where
  | acquire (l : Lock) (write : Bool) : Ev
  | release (l : Lock) (write : Bool) : Ev
  | incCounter : Ev
  | kmalloc (t : AllocTag) : Ev
  | kfree (t : AllocTag) : Ev
  | log : Ev
deriving DecidableEq

/-- Lock tier as assigned by spec section 5; `fOwner` is outside the
discipline and gets tier 0. -/
def tier : Lock → Nat
  | .fOwner => 0
  | .membership => 1
  | .registry => 2
  | .slab _ => 3

/-- Net acquire-minus-release count of a lock over a trace; positive means
the lock is held at the end of the trace. -/
def heldCount (tr : List Ev) (l : Lock) : Int :=
  tr.foldl (fun n ev =>
    match ev with
    | .acquire l2 _ => if l2 = l then n + 1 else n
    | .release l2 _ => if l2 = l then n - 1 else n
    | _ => n) 0

/-- Scans a trace with the given list of currently-held locks; `true` when
some acquisition of a tiered lock happens while a strictly higher-tiered
lock is held. -/
def tierViolationAux : List Lock → List Ev → Bool
  | _, [] => false
  | held, .acquire l _ :: rest =>
      (decide (tier l ≠ 0) && held.any (fun h => decide (tier l < tier h)))
        || tierViolationAux (l :: held) rest
  | held, .release l _ :: rest => tierViolationAux (held.erase l) rest
  | held, _ :: rest => tierViolationAux held rest

/-- `true` when the trace acquires a lower-numbered tier while already
holding a higher-numbered one (the discipline spec section 5 forbids). -/
def tierViolation (tr : List Ev) : Bool := tierViolationAux [] tr

/-- Modulus of the 64-bit unsigned `buffer_id_t` counter. -/
def UID_MOD : Nat := 2 ^ 64

/-- `gen_next_map_id` from buffer.c lines 31-35: post-increment of the
global counter — returns the current value, stores the incremented value
(an `unsigned long`, hence modulo `2 ^ 64`). -/
def gen_next_map_id (c : Nat) : Nat × Nat := (c, (c + 1) % UID_MOD)

/-- Counter value after `n` calls of `gen_next_map_id` starting from the
initial counter 0. -/
def genState : Nat → Nat
  | 0 => 0
  | n + 1 => (gen_next_map_id (genState n)).2

/-- Result of `alloc_buffer`: the updated global wrapper, updated file,
the out-parameter `*buffer` (the inserted entry, `none` on failure), the C
return value, and the event trace. -/
structure AllocResult where
  wrapper : map_wrapper_t
  fl : file
  buffer : Option map_entry
  ok : Bool
  trace : List Ev
deriving DecidableEq

/-- `alloc_buffer` from buffer.c lines 158-216. The two `kmalloc` outcomes
are oracle inputs. On the duplicate-key path the C code releases the
registry lock, then `read_unlock`s `f_owner.lock` a second time (it was
already unlocked at line 196) and returns without ever releasing the
connection record's spinlock or the new slab's write lock — the trace
records exactly those events. Returns `none` when `file->private_data`
is null (the C would dereference it at line 193). -/
def alloc_buffer (user_buffer_size kernel_buffer_size : Nat)
    (kmalloc_kernel_ok kmalloc_user_ok : Bool)
    (f : file) (w : map_wrapper_t) : Option AllocResult :=
  if !kmalloc_kernel_ok then
    some { wrapper := w, fl := f, buffer := none, ok := false, trace := [] }
  else if !kmalloc_user_ok then
    some { wrapper := w, fl := f, buffer := none, ok := false,
           trace := [.kmalloc .kernelData, .kfree .kernelData] }
  else
    match f.private_data with
    | none => none
    | some pd =>
      let key : map_key := { buffer_uid := (gen_next_map_id w.uid_counter).1, pid := f.pid }
      let c2 := (gen_next_map_id w.uid_counter).2
      let entry : map_entry :=
        { key := key,
          buffer := { userSize := user_buffer_size, kernelSize := kernel_buffer_size } }
      let pre : List Ev :=
        [.kmalloc .kernelData, .kmalloc .userBuffer,
         .acquire (.slab key) true, .acquire .fOwner false, .incCounter,
         .acquire .membership true, .acquire .registry true,
         .release .fOwner false]
      match map_insert w.root entry with
      | none =>
          some { wrapper := { root := w.root, uid_counter := c2 }, fl := f,
                 buffer := none, ok := false,
                 trace := pre ++
                   [.release .registry true, .release .fOwner false,
                    .kfree .userBuffer, .kfree .kernelData] }
      | some root2 =>
          some { wrapper := { root := root2, uid_counter := c2 },
                 fl := { f with private_data := some { members := key :: pd.members } },
                 buffer := some entry, ok := true,
                 trace := pre ++
                   [.release .registry true, .release .membership true] }

/-- `free_buffer` from buffer.c lines 221-257. On a miss the condition is
logged (`mpr_err`) and nothing changes. On a hit the entry is erased from
the tree and its list node removed from the file's member list, then both
regions are freed; the slab's write lock is taken and never released (the
slab is destroyed holding it). Returns `none` when the hit path would
dereference a null `file->private_data` (line 241). -/
def free_buffer (id : Nat) (f : file) (w : map_wrapper_t) :
    Option (map_wrapper_t × file × List Ev) :=
  let key : map_key := { buffer_uid := id, pid := f.pid }
  let pre : List Ev :=
    [.acquire .fOwner false, .release .fOwner false, .acquire .registry true]
  match map_search w.root key with
  | none => some (w, f, pre ++ [.release .registry true, .log])
  | some _ =>
      match f.private_data with
      | none => none
      | some pd =>
          some ({ root := rb_erase w.root key, uid_counter := w.uid_counter },
                { f with private_data := some { members := pd.members.erase key } },
                pre ++
                  [.acquire .membership true, .acquire (.slab key) true,
                   .release .registry true, .release .membership true,
                   .kfree .userBuffer, .kfree .kernelData])

/-- `get_buffer` from buffer.c lines 260-276: search under the registry
read lock; on a hit take the slab's read lock before releasing the registry
lock (hand-over-hand) and return the entry; on a miss release the registry
lock and return failure. -/
def get_buffer (id : Nat) (pid : Int) (w : map_wrapper_t) :
    Option map_entry × List Ev :=
  let key : map_key := { buffer_uid := id, pid := pid }
  match map_search w.root key with
  | none => (none, [.acquire .registry false, .release .registry false])
  | some m =>
      (some m,
       [.acquire .registry false, .acquire (.slab m.key) false,
        .release .registry false])

/-- `buffer_init_file` from buffer.c lines 278-296: allocate a fresh empty
connection record and attach it; fail if the allocation fails. -/
def buffer_init_file (kmalloc_ok : Bool) (f : file) : file × Bool :=
  if !kmalloc_ok then (f, false)
  else ({ f with private_data := some { members := [] } }, true)

/-- `buffer_free_file` from buffer.c lines 298-337: return immediately on a
null `private_data`; otherwise, under the spinlock and the registry write
lock, walk the member list erasing each entry from the tree, unlinking its
node and freeing its regions. The connection record itself stays attached,
with an emptied list. -/
def buffer_free_file (f : file) (w : map_wrapper_t) :
    map_wrapper_t × file × List Ev :=
  match f.private_data with
  | none => (w, f, [])
  | some pd =>
      let loopTrace : List Ev :=
        pd.members.foldl (fun acc k =>
          acc ++ [.acquire (.slab k) true, .kfree .userBuffer, .kfree .kernelData]) []
      ({ root := pd.members.foldl rb_erase w.root, uid_counter := w.uid_counter },
       { f with private_data := some { members := [] } },
       [.acquire .membership true, .acquire .registry true] ++ loopTrace ++
         [.release .registry true, .release .membership true])

/-- `map_key_cmp` of a key with itself is zero. -/
theorem map_key_cmp_self (k : map_key) : map_key_cmp k k = 0 := by
  simp [map_key_cmp]

/-- `map_key_cmp` is zero exactly on equal keys. -/
theorem map_key_cmp_eq_zero {a b : map_key} : map_key_cmp a b = 0 ↔ a = b := by
  obtain ⟨ap, au⟩ := a
  obtain ⟨bp, bu⟩ := b
  simp only [map_key_cmp, map_key.mk.injEq]
  constructor
  · intro h
    split_ifs at h <;> exact ⟨by omega, by omega⟩
  · rintro ⟨rfl, rfl⟩
    simp

/-- Antisymmetry of the comparison. -/
theorem map_key_cmp_lt_iff_gt (a b : map_key) :
    map_key_cmp a b < 0 ↔ map_key_cmp b a > 0 := by
  cases a with
  | mk ap au =>
    cases b with
    | mk bp bu =>
      simp only [map_key_cmp]
      split_ifs <;> omega

/-- Transitivity of the strict comparison. -/
theorem map_key_cmp_trans {a b c : map_key}
    (h1 : map_key_cmp a b < 0) (h2 : map_key_cmp b c < 0) :
    map_key_cmp a c < 0 := by
  cases a with
  | mk ap au =>
    cases b with
    | mk bp bu =>
      cases c with
      | mk cp cu =>
        simp only [map_key_cmp] at h1 h2 ⊢
        split_ifs at h1 h2 ⊢ <;> omega

/-- A successful search returns a structurally present entry whose key is
the searched key. -/
theorem search_mem {t : Rbtree} {k : map_key} {e : map_entry}
    (h : map_search t k = some e) : MemT e t ∧ e.key = k := by
  induction t with
  | nil => simp [map_search] at h
  | node l e0 r ihl ihr =>
    simp only [map_search] at h
    split_ifs at h with h1 h2
    · obtain ⟨hm, hk⟩ := ihl h
      exact ⟨Or.inl hm, hk⟩
    · obtain ⟨hm, hk⟩ := ihr h
      exact ⟨Or.inr (Or.inr hm), hk⟩
    · cases h
      refine ⟨Or.inr (Or.inl rfl), ?_⟩
      have h0 : map_key_cmp k e.key = 0 := by omega
      exact (map_key_cmp_eq_zero.mp h0).symm

/-- Search fails when no structurally present entry carries the key. -/
theorem search_eq_none {t : Rbtree} {k : map_key}
    (h : ∀ e, MemT e t → e.key ≠ k) : map_search t k = none := by
  cases hs : map_search t k with
  | none => rfl
  | some e => exact absurd (search_mem hs).2 (h e (search_mem hs).1)

/-- Membership in a glued tree is membership in either part. -/
theorem memT_append {e : map_entry} {l r : Rbtree} :
    MemT e (treeAppend l r) ↔ MemT e l ∨ MemT e r := by
  induction l with
  | nil => simp [treeAppend, MemT]
  | node ll e0 lr ihl ihr =>
    simp only [treeAppend, MemT, ihr]
    tauto

/-- Erasure only removes entries, and never leaves one carrying the erased
key (on a binary search tree). -/
theorem mem_erase {t : Rbtree} {k : map_key} {e : map_entry}
    (hb : IsBST t) (h : MemT e (rb_erase t k)) : MemT e t ∧ e.key ≠ k := by
  induction t with
  | nil => simp [rb_erase, MemT] at h
  | node l e0 r ihl ihr =>
    cases hb with
    | node hl hr bl br =>
      simp only [rb_erase] at h
      split_ifs at h with h1 h2
      · simp only [MemT] at h
        rcases h with h | h | h
        · obtain ⟨hm, hk⟩ := ihl bl h
          exact ⟨Or.inl hm, hk⟩
        · subst h
          refine ⟨Or.inr (Or.inl rfl), fun hk => ?_⟩
          rw [← hk, map_key_cmp_self] at h1
          omega
        · refine ⟨Or.inr (Or.inr h), fun hk => ?_⟩
          have := hr e h
          rw [hk] at this
          omega
      · simp only [MemT] at h
        rcases h with h | h | h
        · refine ⟨Or.inl h, fun hk => ?_⟩
          have := hl e h
          rw [hk] at this
          omega
        · subst h
          refine ⟨Or.inr (Or.inl rfl), fun hk => ?_⟩
          rw [← hk, map_key_cmp_self] at h2
          omega
        · obtain ⟨hm, hk⟩ := ihr br h
          exact ⟨Or.inr (Or.inr hm), hk⟩
      · have hk0 : map_key_cmp k e0.key = 0 := by omega
        have hke : k = e0.key := map_key_cmp_eq_zero.mp hk0
        rcases memT_append.mp h with h | h
        · refine ⟨Or.inl h, fun hk => ?_⟩
          have := hl e h
          rw [hk, hke, map_key_cmp_self] at this
          omega
        · refine ⟨Or.inr (Or.inr h), fun hk => ?_⟩
          have := hr e h
          rw [hk, hke, map_key_cmp_self] at this
          omega

/-- Gluing the two subtrees of an erased pivot preserves the invariant. -/
theorem isBST_append {l r : Rbtree} (pivot : map_key)
    (hl : ∀ e, MemT e l → map_key_cmp e.key pivot < 0)
    (hr : ∀ e, MemT e r → map_key_cmp e.key pivot > 0)
    (bl : IsBST l) (br : IsBST r) : IsBST (treeAppend l r) := by
  induction l with
  | nil => simpa [treeAppend] using br
  | node ll e0 lr ihll ihlr =>
    cases bl with
    | node hll hlr bll blr =>
      refine IsBST.node hll (fun e he => ?_) bll
        (ihlr (fun e he => hl e (Or.inr (Or.inr he))) blr)
      rcases memT_append.mp he with he | he
      · exact hlr e he
      · have h1 : map_key_cmp e0.key pivot < 0 := hl e0 (Or.inr (Or.inl rfl))
        have h2 : map_key_cmp pivot e.key < 0 :=
          (map_key_cmp_lt_iff_gt pivot e.key).mpr (hr e he)
        have := map_key_cmp_trans h1 h2
        rw [map_key_cmp_lt_iff_gt] at this
        exact this

/-- Erasure preserves the binary-search-tree invariant. -/
theorem isBST_erase {t : Rbtree} (k : map_key) (hb : IsBST t) :
    IsBST (rb_erase t k) := by
  induction t with
  | nil => simpa [rb_erase] using hb
  | node l e0 r ihl ihr =>
    cases hb with
    | node hl hr bl br =>
      simp only [rb_erase]
      split_ifs with h1 h2
      · exact IsBST.node (fun e he => hl e (mem_erase bl he).1) hr (ihl bl) br
      · exact IsBST.node hl (fun e he => hr e (mem_erase br he).1) bl (ihr br)
      · exact isBST_append e0.key hl hr bl br

/-- After erasing a key from a binary search tree, searching for it fails. -/
theorem search_erase_self {t : Rbtree} {k : map_key} (hb : IsBST t) :
    map_search (rb_erase t k) k = none :=
  search_eq_none (fun _ he => (mem_erase hb he).2)

/-- A successful insertion makes the inserted entry findable by its key. -/
theorem search_insert_self {t t2 : Rbtree} {d : map_entry}
    (h : map_insert t d = some t2) : map_search t2 d.key = some d := by
  induction t generalizing t2 with
  | nil =>
    simp only [map_insert, Option.some.injEq] at h
    subst h
    simp [map_search, map_key_cmp_self]
  | node l e0 r ihl ihr =>
    simp only [map_insert] at h
    split_ifs at h with h1 h2
    · rw [Option.map_eq_some'] at h
      obtain ⟨l2, hl2, rfl⟩ := h
      simp only [map_search, h1, if_pos]
      exact ihl hl2
    · rw [Option.map_eq_some'] at h
      obtain ⟨r2, hr2, rfl⟩ := h
      simp only [map_search]
      rw [if_neg (by omega), if_pos h2]
      exact ihr hr2

/-- Entries surviving an iterated erasure were present initially and carry
none of the erased keys. -/
theorem mem_foldl_erase {ks : List map_key} {t : Rbtree} {e : map_entry}
    (hb : IsBST t) (h : MemT e (ks.foldl rb_erase t)) :
    MemT e t ∧ ∀ k ∈ ks, e.key ≠ k := by
  induction ks generalizing t with
  | nil => simpa using h
  | cons k ks ih =>
    obtain ⟨h1, h2⟩ := ih (isBST_erase k hb) (by simpa using h)
    obtain ⟨h3, h4⟩ := mem_erase hb h1
    refine ⟨h3, fun k2 hk2 => ?_⟩
    rcases List.mem_cons.mp hk2 with rfl | hk3
    · exact h4
    · exact h2 k2 hk3

/-- Searching any of the iteratively erased keys fails afterwards. -/
theorem search_foldl_erase {ks : List map_key} {t : Rbtree} {k : map_key}
    (hb : IsBST t) (hk : k ∈ ks) :
    map_search (ks.foldl rb_erase t) k = none :=
  search_eq_none (fun _ he => (mem_foldl_erase hb he).2 k hk)

/-- A one-node tree satisfies the invariant. -/
theorem isBST_singleton (e : map_entry) : IsBST (.node .nil e .nil) :=
  IsBST.node (fun _ h => absurd h (by simp [MemT]))
    (fun _ h => absurd h (by simp [MemT])) IsBST.nil IsBST.nil

/-- The counter after `n` generator calls from a fresh registry is
`n % 2 ^ 64`. -/
theorem genState_eq (n : Nat) : genState n = n % UID_MOD := by
  induction n with
  | zero => simp [genState]
  | succ n ih =>
    simp only [genState, gen_next_map_id, ih]
    have h1 : 1 % UID_MOD = 1 := Nat.mod_eq_of_lt (by norm_num [UID_MOD])
    conv_rhs => rw [Nat.add_mod]
    rw [h1]

/-- Claim C4: for every registry state (satisfying the search-tree
invariant) and every buffer id, after `free_buffer(id, file)` completes, a
subsequent `get_buffer` with that id and the file's owner pid fails — the
erased entry is no longer observable in the global registry. -/
theorem free_buffer_removes_visibility (id : Nat) (f : file) (w : map_wrapper_t)
    (pd : file_ll_head) (w2 : map_wrapper_t) (f2 : file) (tr : List Ev)
    (hb : IsBST w.root) (hpd : f.private_data = some pd)
    (h : free_buffer id f w = some (w2, f2, tr)) :
    (get_buffer id f.pid w2).1 = none := by
  simp only [free_buffer, hpd] at h
  cases hs : map_search w.root { buffer_uid := id, pid := f.pid } with
  | none =>
    rw [hs] at h
    simp only [Option.some.injEq, Prod.mk.injEq] at h
    obtain ⟨rfl, rfl, rfl⟩ := h
    simp [get_buffer, hs]
  | some e =>
    rw [hs] at h
    simp only [Option.some.injEq, Prod.mk.injEq] at h
    obtain ⟨rfl, rfl, rfl⟩ := h
    simp [get_buffer, search_erase_self hb]

/-- Witness for C4 at a concrete one-entry registry. -/
theorem free_buffer_removes_visibility_witness :
    (get_buffer 0 5 { root := .nil, uid_counter := 1 }).1 = none :=
  free_buffer_removes_visibility 0 ⟨5, some ⟨[⟨5, 0⟩]⟩⟩
    ⟨.node .nil ⟨⟨5, 0⟩, ⟨16, 8⟩⟩ .nil, 1⟩ ⟨[⟨5, 0⟩]⟩
    { root := .nil, uid_counter := 1 } ⟨5, some ⟨[]⟩⟩
    [.acquire .fOwner false, .release .fOwner false, .acquire .registry true,
     .acquire .membership true, .acquire (.slab ⟨5, 0⟩) true,
     .release .registry true, .release .membership true,
     .kfree .userBuffer, .kfree .kernelData]
    (isBST_singleton _) rfl (by decide)

/-- Claim C5: after `buffer_free_file(handle)` completes, every key on the
handle's member list (which, by the maintained back-reference invariant, is
exactly the set of buffers allocated through the handle and still live) has
been erased from the global registry — searching it fails — and the
handle's member list is empty. -/
theorem buffer_free_file_complete (f : file) (w : map_wrapper_t)
    (pd : file_ll_head) (k : map_key)
    (hb : IsBST w.root) (hpd : f.private_data = some pd)
    (hk : k ∈ pd.members) :
    map_search (buffer_free_file f w).1.root k = none ∧
    (buffer_free_file f w).2.1.private_data = some { members := [] } := by
  simp only [buffer_free_file, hpd]
  exact ⟨search_foldl_erase hb hk, by simp⟩

/-- Witness for C5 at a concrete one-entry registry. -/
theorem buffer_free_file_complete_witness :
    map_search (buffer_free_file ⟨9, some ⟨[⟨9, 0⟩]⟩⟩
      ⟨.node .nil ⟨⟨9, 0⟩, ⟨32, 16⟩⟩ .nil, 1⟩).1.root ⟨9, 0⟩ = none ∧
    (buffer_free_file ⟨9, some ⟨[⟨9, 0⟩]⟩⟩
      ⟨.node .nil ⟨⟨9, 0⟩, ⟨32, 16⟩⟩ .nil, 1⟩).2.1.private_data =
      some { members := [] } :=
  buffer_free_file_complete ⟨9, some ⟨[⟨9, 0⟩]⟩⟩
    ⟨.node .nil ⟨⟨9, 0⟩, ⟨32, 16⟩⟩ .nil, 1⟩ ⟨[⟨9, 0⟩]⟩ ⟨9, 0⟩
    (isBST_singleton _) rfl (by decide)

/-- Claim C6: a successful `alloc_buffer(user_size, kernel_size, file)`
followed by `get_buffer` with the allocated buffer id and the file's owner
pid succeeds and returns the very entry that was allocated, whose user
region has size `user_size` and whose kernel region has size `kernel_size`
as requested. -/
theorem alloc_then_get (us ks : Nat) (f : file) (w : map_wrapper_t)
    (pd : file_ll_head) (res : AllocResult)
    (hpd : f.private_data = some pd)
    (h : alloc_buffer us ks true true f w = some res) (hok : res.ok = true) :
    res.buffer = some ⟨⟨f.pid, w.uid_counter⟩, ⟨us, ks⟩⟩ ∧
    (get_buffer w.uid_counter f.pid res.wrapper).1 =
      some ⟨⟨f.pid, w.uid_counter⟩, ⟨us, ks⟩⟩ := by
  simp only [alloc_buffer, Bool.not_true, Bool.false_eq_true, if_false, hpd,
    gen_next_map_id] at h
  cases hi : map_insert w.root ⟨⟨f.pid, w.uid_counter⟩, ⟨us, ks⟩⟩ with
  | none =>
    rw [hi] at h
    simp only [Option.some.injEq] at h
    subst h
    simp at hok
  | some root2 =>
    rw [hi] at h
    simp only [Option.some.injEq] at h
    subst h
    refine ⟨rfl, ?_⟩
    have hs := search_insert_self hi
    simp [get_buffer, hs]

/-- Witness for C6: allocating from a fresh registry and looking the buffer
up again. -/
theorem alloc_then_get_witness :
    ({ wrapper := { root := .node .nil ⟨⟨7, 0⟩, ⟨16, 8⟩⟩ .nil, uid_counter := 1 },
       fl := ⟨7, some ⟨[⟨7, 0⟩]⟩⟩,
       buffer := some ⟨⟨7, 0⟩, ⟨16, 8⟩⟩, ok := true,
       trace := [.kmalloc .kernelData, .kmalloc .userBuffer,
                 .acquire (.slab ⟨7, 0⟩) true, .acquire .fOwner false,
                 .incCounter, .acquire .membership true,
                 .acquire .registry true, .release .fOwner false,
                 .release .registry true, .release .membership true] } :
      AllocResult).buffer = some ⟨⟨7, 0⟩, ⟨16, 8⟩⟩ ∧
    (get_buffer 0 7
      { root := .node .nil ⟨⟨7, 0⟩, ⟨16, 8⟩⟩ .nil, uid_counter := 1 }).1 =
      some ⟨⟨7, 0⟩, ⟨16, 8⟩⟩ :=
  alloc_then_get 16 8 ⟨7, some ⟨[]⟩⟩ ⟨.nil, 0⟩ ⟨[]⟩ _ rfl (by decide) rfl

/-- Claim C7: `get_buffer` performs hand-over-hand locking — on a hit its
trace acquires the slab's read lock strictly before releasing the registry
read lock and it returns the entry with the slab read lock still held and
the registry lock released; on a miss it releases the registry read lock,
fails, and holds no lock at all. -/
theorem get_buffer_hand_over_hand (id : Nat) (pid : Int) (w : map_wrapper_t) :
    (∀ e, map_search w.root { buffer_uid := id, pid := pid } = some e →
      get_buffer id pid w =
        (some e, [.acquire .registry false, .acquire (.slab e.key) false,
                  .release .registry false]) ∧
      heldCount (get_buffer id pid w).2 (.slab e.key) = 1 ∧
      heldCount (get_buffer id pid w).2 .registry = 0) ∧
    (map_search w.root { buffer_uid := id, pid := pid } = none →
      get_buffer id pid w =
        (none, [.acquire .registry false, .release .registry false]) ∧
      ∀ l, heldCount (get_buffer id pid w).2 l = 0) := by
  constructor
  · intro e he
    have hg : get_buffer id pid w =
        (some e, [.acquire .registry false, .acquire (.slab e.key) false,
                  .release .registry false]) := by
      simp [get_buffer, he]
    refine ⟨hg, ?_, ?_⟩ <;> rw [hg] <;> simp [heldCount]
  · intro he
    have hg : get_buffer id pid w =
        (none, [.acquire .registry false, .release .registry false]) := by
      simp [get_buffer, he]
    refine ⟨hg, fun l => ?_⟩
    rw [hg]
    by_cases hl : Lock.registry = l <;> simp [heldCount, hl]

/-- Witness for C7: a concrete hit and a concrete miss on a one-entry
registry. -/
theorem get_buffer_hand_over_hand_witness :
    get_buffer 0 3 ⟨.node .nil ⟨⟨3, 0⟩, ⟨8, 4⟩⟩ .nil, 1⟩ =
      (some ⟨⟨3, 0⟩, ⟨8, 4⟩⟩,
       [.acquire .registry false, .acquire (.slab ⟨3, 0⟩) false,
        .release .registry false]) ∧
    heldCount (get_buffer 0 3 ⟨.node .nil ⟨⟨3, 0⟩, ⟨8, 4⟩⟩ .nil, 1⟩).2
      (.slab ⟨3, 0⟩) = 1 ∧
    heldCount (get_buffer 0 3 ⟨.node .nil ⟨⟨3, 0⟩, ⟨8, 4⟩⟩ .nil, 1⟩).2
      .registry = 0 ∧
    get_buffer 1 3 ⟨.node .nil ⟨⟨3, 0⟩, ⟨8, 4⟩⟩ .nil, 1⟩ =
      (none, [.acquire .registry false, .release .registry false]) ∧
    heldCount (get_buffer 1 3 ⟨.node .nil ⟨⟨3, 0⟩, ⟨8, 4⟩⟩ .nil, 1⟩).2
      .membership = 0 :=
  ⟨((get_buffer_hand_over_hand 0 3 _).1 ⟨⟨3, 0⟩, ⟨8, 4⟩⟩ (by decide)).1,
   ((get_buffer_hand_over_hand 0 3 _).1 ⟨⟨3, 0⟩, ⟨8, 4⟩⟩ (by decide)).2.1,
   ((get_buffer_hand_over_hand 0 3 _).1 ⟨⟨3, 0⟩, ⟨8, 4⟩⟩ (by decide)).2.2,
   ((get_buffer_hand_over_hand 1 3 _).2 (by decide)).1,
   ((get_buffer_hand_over_hand 1 3 _).2 (by decide)).2 .membership⟩

/-- Claim C8: calling `free_buffer` with a key that is not in the registry
is a no-op — the registry (index and id counter) and the file (including
its connection record) are returned unchanged, no error is surfaced, and
the condition is only logged (`mpr_err`), as the explicit trace shows. -/
theorem free_buffer_miss_noop (id : Nat) (f : file) (w : map_wrapper_t)
    (h : map_search w.root { buffer_uid := id, pid := f.pid } = none) :
    free_buffer id f w =
      some (w, f,
        [.acquire .fOwner false, .release .fOwner false, .acquire .registry true,
         .release .registry true, .log]) := by
  simp [free_buffer, h]

/-- Witness for C8 on an empty registry. -/
theorem free_buffer_miss_noop_witness :
    free_buffer 5 ⟨1, none⟩ ⟨.nil, 0⟩ =
      some (⟨.nil, 0⟩, ⟨1, none⟩,
        [.acquire .fOwner false, .release .fOwner false, .acquire .registry true,
         .release .registry true, .log]) :=
  free_buffer_miss_noop 5 ⟨1, none⟩ ⟨.nil, 0⟩ (by decide)

/-- Claim C10: `buffer_free_file` is sequentially idempotent at the state
level — when the connection record pointer is null it returns immediately
with nothing changed, and a second invocation on the state produced by a
first one changes neither the registry nor the file (the record stays
attached with an empty member list). -/
theorem buffer_free_file_idempotent (f : file) (w : map_wrapper_t) :
    (f.private_data = none → buffer_free_file f w = (w, f, [])) ∧
    (buffer_free_file (buffer_free_file f w).2.1 (buffer_free_file f w).1).1 =
      (buffer_free_file f w).1 ∧
    (buffer_free_file (buffer_free_file f w).2.1 (buffer_free_file f w).1).2.1 =
      (buffer_free_file f w).2.1 := by
  cases hpd : f.private_data with
  | none =>
    refine ⟨fun _ => ?_, ?_, ?_⟩ <;> simp [buffer_free_file, hpd]
  | some pd =>
    refine ⟨fun hc => by simp [hpd] at hc, ?_, ?_⟩ <;>
      simp [buffer_free_file, hpd]

/-- Witness for C10 on a file with a null record pointer. -/
theorem buffer_free_file_idempotent_witness :
    buffer_free_file ⟨2, none⟩ ⟨.nil, 0⟩ = (⟨.nil, 0⟩, ⟨2, none⟩, []) :=
  (buffer_free_file_idempotent ⟨2, none⟩ ⟨.nil, 0⟩).1 rfl

/-- Counterexample to C1 as stated: on a concrete one-entry registry,
`free_buffer` acquires the registry write lock (tier 2, trace index 2)
strictly before the connection record's membership lock (tier 1, trace
index 3) — so release does not take the membership lock first, and the
tier scan reports an acquisition of a lower-numbered tier while a
higher-numbered one is held. -/
theorem free_buffer_lock_order_counterexample :
    (free_buffer 0 ⟨11, some ⟨[⟨11, 0⟩]⟩⟩
        ⟨.node .nil ⟨⟨11, 0⟩, ⟨16, 8⟩⟩ .nil, 1⟩).map (fun r => r.2.2) =
      some [.acquire .fOwner false, .release .fOwner false,
            .acquire .registry true, .acquire .membership true,
            .acquire (.slab ⟨11, 0⟩) true, .release .registry true,
            .release .membership true, .kfree .userBuffer, .kfree .kernelData] ∧
    (free_buffer 0 ⟨11, some ⟨[⟨11, 0⟩]⟩⟩
        ⟨.node .nil ⟨⟨11, 0⟩, ⟨16, 8⟩⟩ .nil, 1⟩).map
        (fun r => tierViolation r.2.2) = some true := by
  decide

/-- Claim C1 (amended): the lock orders the code actually uses.
`free_buffer` on a hit acquires the registry write lock (tier 2) first,
then the membership lock (tier 1), then the slab write lock (tier 3);
`alloc_buffer` write-locks the freshly created slab (tier 3) before
anything else and then acquires the membership lock (tier 1) before the
registry write lock (tier 2). So tier 1 before tier 2 holds inside
`alloc_buffer`, but lower-numbered tiers are acquired while higher-numbered
ones are held, by both operations. -/
theorem lock_order_as_implemented :
    (∀ (id : Nat) (f : file) (w : map_wrapper_t) (pd : file_ll_head)
        (e : map_entry),
      f.private_data = some pd →
      map_search w.root { buffer_uid := id, pid := f.pid } = some e →
      (free_buffer id f w).map (fun r => r.2.2) =
        some [.acquire .fOwner false, .release .fOwner false,
              .acquire .registry true, .acquire .membership true,
              .acquire (.slab { buffer_uid := id, pid := f.pid }) true,
              .release .registry true, .release .membership true,
              .kfree .userBuffer, .kfree .kernelData]) ∧
    (∀ (us ks : Nat) (f : file) (w : map_wrapper_t) (pd : file_ll_head)
        (res : AllocResult),
      f.private_data = some pd →
      alloc_buffer us ks true true f w = some res →
      res.trace.take 8 =
        [.kmalloc .kernelData, .kmalloc .userBuffer,
         .acquire (.slab { buffer_uid := w.uid_counter, pid := f.pid }) true,
         .acquire .fOwner false, .incCounter, .acquire .membership true,
         .acquire .registry true, .release .fOwner false]) := by
  constructor
  · intro id f w pd e hpd hs
    simp [free_buffer, hpd, hs]
  · intro us ks f w pd res hpd h
    simp only [alloc_buffer, Bool.not_true, Bool.false_eq_true, if_false, hpd,
      gen_next_map_id] at h
    cases hi : map_insert w.root ⟨⟨f.pid, w.uid_counter⟩, ⟨us, ks⟩⟩ with
    | none =>
      rw [hi] at h
      simp only [Option.some.injEq] at h
      subst h
      rfl
    | some root2 =>
      rw [hi] at h
      simp only [Option.some.injEq] at h
      subst h
      rfl

/-- Witness for the amended C1 at concrete inputs (a hit release and a
successful allocation from a fresh registry). -/
theorem lock_order_as_implemented_witness :
    (free_buffer 0 ⟨6, some ⟨[⟨6, 0⟩]⟩⟩
        ⟨.node .nil ⟨⟨6, 0⟩, ⟨4, 4⟩⟩ .nil, 1⟩).map (fun r => r.2.2) =
      some [.acquire .fOwner false, .release .fOwner false,
            .acquire .registry true, .acquire .membership true,
            .acquire (.slab ⟨6, 0⟩) true, .release .registry true,
            .release .membership true, .kfree .userBuffer, .kfree .kernelData] ∧
    ({ wrapper := { root := .node .nil ⟨⟨6, 0⟩, ⟨4, 4⟩⟩ .nil, uid_counter := 1 },
       fl := ⟨6, some ⟨[⟨6, 0⟩]⟩⟩,
       buffer := some ⟨⟨6, 0⟩, ⟨4, 4⟩⟩, ok := true,
       trace := [.kmalloc .kernelData, .kmalloc .userBuffer,
                 .acquire (.slab ⟨6, 0⟩) true, .acquire .fOwner false,
                 .incCounter, .acquire .membership true,
                 .acquire .registry true, .release .fOwner false,
                 .release .registry true, .release .membership true] } :
      AllocResult).trace.take 8 =
      [.kmalloc .kernelData, .kmalloc .userBuffer,
       .acquire (.slab ⟨6, 0⟩) true, .acquire .fOwner false,
       .incCounter, .acquire .membership true,
       .acquire .registry true, .release .fOwner false] :=
  ⟨lock_order_as_implemented.1 0 ⟨6, some ⟨[⟨6, 0⟩]⟩⟩
      ⟨.node .nil ⟨⟨6, 0⟩, ⟨4, 4⟩⟩ .nil, 1⟩ ⟨[⟨6, 0⟩]⟩ ⟨⟨6, 0⟩, ⟨4, 4⟩⟩
      rfl (by decide),
   lock_order_as_implemented.2 4 4 ⟨6, some ⟨[]⟩⟩ ⟨.nil, 0⟩ ⟨[]⟩ _
      rfl (by decide)⟩

/-- Code bug exposed by C2: on the duplicate-key failure path,
`alloc_buffer` does free both regions, report failure, and leave the
registry index and the member list unchanged — but it leaves the
connection record's spinlock held (net count 1), performs one more
`read_unlock` of `f_owner.lock` than `read_lock` (net count -1: the double
unlock at buffer.c line 200, the lock having already been released at line
196), leaves the new slab's write lock outstanding while freeing the slab,
and has already advanced the id counter from 0 to 1. -/
theorem alloc_duplicate_key_lock_leak :
    (alloc_buffer 16 8 true true ⟨7, some ⟨[]⟩⟩
        ⟨.node .nil ⟨⟨7, 0⟩, ⟨16, 8⟩⟩ .nil, 0⟩).map
      (fun r => (r.ok, r.buffer, r.fl, r.wrapper.root, r.wrapper.uid_counter,
                 heldCount r.trace .membership, heldCount r.trace .fOwner,
                 heldCount r.trace (.slab ⟨7, 0⟩))) =
      some (false, none, ⟨7, some ⟨[]⟩⟩, .node .nil ⟨⟨7, 0⟩, ⟨16, 8⟩⟩ .nil,
            1, 1, -1, 1) := by
  rfl

/-- Code bug exposed by C3: in every successful run of `alloc_buffer` the
counter increment (trace index 4) happens strictly before the registry
write lock is acquired (trace index 6) — here evaluated on a fresh
registry: at the increment the registry lock's held count is 0. -/
theorem id_increment_outside_registry_lock :
    (alloc_buffer 16 8 true true ⟨7, some ⟨[]⟩⟩ ⟨.nil, 0⟩).map
        (fun r => (r.trace[4]?, heldCount (r.trace.take 4) .registry,
                   r.trace[6]?)) =
      some (some .incCounter, 0, some (.acquire .registry true)) := by
  decide

/-- Counterexample to C9 as stated: `buffer_id_t` is a 64-bit unsigned
value, so the generator's return values are not strictly increasing across
all successive calls — the call with index `2 ^ 64 - 1` (counting from 0,
from a fresh registry) returns `2 ^ 64 - 1` and the next call returns 0. -/
theorem gen_id_not_strictly_increasing :
    (gen_next_map_id (genState (2 ^ 64 - 1))).1 = 2 ^ 64 - 1 ∧
    (gen_next_map_id (genState (2 ^ 64))).1 = 0 ∧
    ¬ (gen_next_map_id (genState (2 ^ 64 - 1))).1 <
        (gen_next_map_id (genState (2 ^ 64))).1 := by
  have h1 : genState (2 ^ 64 - 1) = 2 ^ 64 - 1 := by
    rw [genState_eq]
    exact Nat.mod_eq_of_lt (by norm_num [UID_MOD])
  have h2 : genState (2 ^ 64) = 0 := by
    rw [genState_eq]
    simp [UID_MOD]
  refine ⟨?_, ?_, ?_⟩
  · show genState (2 ^ 64 - 1) = 2 ^ 64 - 1
    exact h1
  · show genState (2 ^ 64) = 0
    exact h2
  · show ¬ genState (2 ^ 64 - 1) < genState (2 ^ 64)
    rw [h1, h2]
    exact Nat.not_lt_zero _

/-- Claim C9 (amended): each generator call returns the current counter
value and stores that value plus one reduced modulo `2 ^ 64`; across
successive calls from a fresh registry the returned values are strictly
increasing as long as the counter has not wrapped (among the first
`2 ^ 64` calls); concretely, the first allocation from a fresh registry
receives buffer id 0 and the second receives buffer id 1. -/
theorem gen_id_monotone_until_wrap :
    (∀ c : Nat, gen_next_map_id c = (c, (c + 1) % 2 ^ 64)) ∧
    (∀ m n : Nat, m < n → n < 2 ^ 64 →
      (gen_next_map_id (genState m)).1 < (gen_next_map_id (genState n)).1) ∧
    ((alloc_buffer 4096 64 true true ⟨1, some ⟨[]⟩⟩ ⟨.nil, 0⟩).map
        (fun r => (r.ok, r.buffer.map (fun e => e.key.buffer_uid))) =
      some (true, some 0)) ∧
    ((alloc_buffer 4096 64 true true ⟨1, some ⟨[⟨1, 0⟩]⟩⟩
        ⟨.node .nil ⟨⟨1, 0⟩, ⟨4096, 64⟩⟩ .nil, 1⟩).map
        (fun r => (r.ok, r.buffer.map (fun e => e.key.buffer_uid))) =
      some (true, some 1)) := by
  refine ⟨fun c => rfl, fun m n hmn hn => ?_, by decide, by decide⟩
  show genState m < genState n
  rw [genState_eq, genState_eq]
  have hm2 : m % UID_MOD = m := Nat.mod_eq_of_lt (Nat.lt_trans hmn hn)
  have hn2 : n % UID_MOD = n := Nat.mod_eq_of_lt hn
  rw [hm2, hn2]
  exact hmn

/-- Witness for the amended C9: the first two generator calls from a fresh
registry return 0 and then 1. -/
theorem gen_id_monotone_until_wrap_witness :
    (gen_next_map_id (genState 0)).1 < (gen_next_map_id (genState 1)).1 :=
  gen_id_monotone_until_wrap.2.1 0 1 (by omega) (by norm_num)

end AsSysBuffer
